import Mathlib

/-!
Verification of the HIGHspeed-toolbox repository.

Shallow embedding of the Python sources:
* `tools/zeitachse/app_product_release.py` and `product_releases_store.py`
  (release-date validation, release store operations),
* `tools/puls_renderer/results_renderer.py` and
  `src/modules/puls_renderer/results_renderer.py` (text truncation and
  word wrapping, matchday-results JSON adapter),
* `tools/puls_renderer/adapter.py` (generator JSON adapter, slugify),
* `tools/deltanet/app_deltanet.py` (hashtag suggestion).

Python strings are modelled as `List Char`.  Text widths measured through
PIL (`_text_w(draw, text, font)`) are modelled by an abstract measure
`W : Str → Int` standing for the fixed `(draw, font)` pair.
-/

abbrev Str := List Char

/-- Python `str.isspace` test for a single character, as used by
`strip`/`rstrip`/`split` (models the usual whitespace characters). -/
def pyIsSpace (c : Char) : Bool := c.isWhitespace

/-- Python `str.strip()`: remove leading and trailing whitespace. -/
def pyStrip (l : Str) : Str :=
  ((l.dropWhile pyIsSpace).reverse.dropWhile pyIsSpace).reverse

/-- Python `str.rstrip()`: remove trailing whitespace. -/
def pyRstrip (l : Str) : Str :=
  (l.reverse.dropWhile pyIsSpace).reverse

/-- Python `str.lower()` on one character (ASCII letters and the German
umlauts that occur in this repository; identity elsewhere). -/
def pyLowerChar (c : Char) : Char :=
  if 'A' ≤ c ∧ c ≤ 'Z' then Char.ofNat (c.toNat + 32)
  else if c = 'Ü' then 'ü'
  else if c = 'Ö' then 'ö'
  else if c = 'Ä' then 'ä'
  else c

/-- Python `str.lower()`. -/
def pyLower (l : Str) : Str := l.map pyLowerChar

/-! ## `tools/zeitachse`: dates and the product-release store -/

/-- A `datetime.date` value: Python compares dates lexicographically by
`(year, month, day)`. -/
structure PyDate where
  year : Nat
  month : Nat
  day : Nat
deriving DecidableEq, Repr

/-- Numeric value of a decimal digit character. -/
def digitVal (c : Char) : Nat := c.toNat - '0'.toNat

/-- Gregorian leap-year test used by `datetime`. -/
def isLeap (y : Nat) : Bool := y % 4 = 0 ∧ (y % 100 ≠ 0 ∨ y % 400 = 0)

/-- Number of days of month `m` in year `y` (as in `datetime`). -/
def daysInMonth (y m : Nat) : Nat :=
  if m = 2 then (if isLeap y then 29 else 28)
  else if m = 4 ∨ m = 6 ∨ m = 9 ∨ m = 11 then 30
  else 31

/-- Models `datetime.date.fromisoformat` on the `YYYY-MM-DD` form used by
this repository: `none` when the string does not parse (Python raises
`ValueError`). -/
def fromisoformat (s : Str) : Option PyDate :=
  match s with
  | [y1, y2, y3, y4, h1, m1, m2, h2, d1, d2] =>
    if h1 = '-' ∧ h2 = '-' ∧
       y1.isDigit ∧ y2.isDigit ∧ y3.isDigit ∧ y4.isDigit ∧
       m1.isDigit ∧ m2.isDigit ∧ d1.isDigit ∧ d2.isDigit then
      let y := ((digitVal y1 * 10 + digitVal y2) * 10 + digitVal y3) * 10 + digitVal y4
      let m := digitVal m1 * 10 + digitVal m2
      let d := digitVal d1 * 10 + digitVal d2
      if 1 ≤ y ∧ 1 ≤ m ∧ m ≤ 12 ∧ 1 ≤ d ∧ d ≤ daysInMonth y m then
        some ⟨y, m, d⟩
      else none
    else none
  | _ => none

/-- Decimal digits of `n` left-padded with `'0'` to width `w`. -/
def padNat (w n : Nat) : Str :=
  let ds := Nat.toDigits 10 n
  List.replicate (w - ds.length) '0' ++ ds

/-- Python `date.isoformat()`: `YYYY-MM-DD`. -/
def PyDate.isoformat (d : PyDate) : Str :=
  padNat 4 d.year ++ ('-' :: padNat 2 d.month) ++ ('-' :: padNat 2 d.day)

/-- Python `date <` comparison: lexicographic on `(year, month, day)`. -/
def pyDateLt (a b : PyDate) : Bool :=
  decide (a.year < b.year ∨ (a.year = b.year ∧
    (a.month < b.month ∨ (a.month = b.month ∧ a.day < b.day))))

/-- A brand record from `product_brands_config.json`; only the fields the
validation rule reads. -/
structure Brand where
  id : Str
  founding_date : Str
deriving DecidableEq, Repr

/-- The message built by `validate_release_date` in its failure branch. -/
def releaseDateMessage (releaseDate founding : PyDate) : Str :=
  "Release-Datum ".data ++ releaseDate.isoformat ++
  " liegt vor Gründungsdatum ".data ++ founding.isoformat

/-- `app_product_release.validate_release_date`: parse the brand's
`founding_date` (the Python code lets `date.fromisoformat` raise when it
does not parse, modelled by `none`) and reject a release date strictly
before the founding date. -/
def validate_release_date (brand : Brand) (release_date : PyDate) :
    Option (Bool × Str) :=
  match fromisoformat brand.founding_date with
  | none => none
  | some founding =>
    if pyDateLt release_date founding then
      some (false, releaseDateMessage release_date founding)
    else
      some (true, "OK".data)

/-- A `ProductRelease` record of `product_releases_store.py`.  `meta` is an
optional JSON object, modelled shallowly as a key/value list. -/
structure ProductRelease where
  id : Str
  release_date : Str
  brand_id : Str
  brand_name : Str
  product_type : Str
  product_name : Str
  notes : Str
  meta : Option (List (Str × Str))
deriving DecidableEq, Repr

/-- `product_releases_store.delete_release`: the Python code reassigns
`releases[:] = [r for r in releases if r.id != release_id]`; we model the
resulting list value. -/
def delete_release (releases : List ProductRelease) (release_id : Str) :
    List ProductRelease :=
  releases.filter (fun r => decide (r.id ≠ release_id))

/-! ## `puls_renderer`: text truncation and word wrapping

`_text_w(draw, text, font)` is modelled by an abstract width measure
`W : Str → Int` standing for the fixed `(draw, font)` pair. -/

/-- Python slice `l[:k]` with a possibly negative bound. -/
def pyTake (l : List α) (k : Int) : List α :=
  if k < 0 then l.take (((l.length : Int) + k).toNat) else l.take k.toNat

/-- Python slice `l[k:]` with a possibly negative bound. -/
def pyDrop (l : List α) (k : Int) : List α :=
  if k < 0 then l.drop (((l.length : Int) + k).toNat) else l.drop k.toNat

/-- Python list repetition `[x] * n` (empty for `n ≤ 0`). -/
def pyRepeat (x : α) (n : Int) : List α := List.replicate n.toNat x

/-- The candidate string `text[:mid].rstrip() + "…"` built inside
`_truncate_line`. -/
def truncCand (text : Str) (mid : Nat) : Str :=
  pyRstrip (text.take mid) ++ "…".data

/-- The bisection loop of `_truncate_line` (`while lo < hi: ...`).  The
loop shrinks `hi - lo` on every iteration, so running it with fuel
`text.length + 1 ≥ hi - lo + 1` iterations models it exactly; the fuel is
an embedding artifact only. -/
def truncSearchAux (W : Str → Int) (maxW : Int) (text : Str)
    (fuel lo hi : Nat) : Nat :=
  match fuel with
  | 0 => lo
  | fuel + 1 =>
    if lo < hi then
      let mid := (lo + hi) / 2
      if W (truncCand text mid) ≤ maxW then
        truncSearchAux W maxW text fuel (mid + 1) hi
      else
        truncSearchAux W maxW text fuel lo mid
    else lo

/-- `_truncate_line(draw, text, font, max_w)` from both copies of
`results_renderer.py` (they are identical): return `text` unchanged when
it fits, otherwise bisect for the longest prefix whose right-stripped form
plus `"…"` fits and return `text[:max(0, lo - 1)].rstrip() + "…"`. -/
def truncate_line (W : Str → Int) (text : Str) (maxW : Int) : Str :=
  if W text ≤ maxW then text
  else
    let lo := truncSearchAux W maxW text (text.length + 1) 0 text.length
    truncCand text (lo - 1)

/-- Helper for Python `str.split()`: accumulates the current word
reversed. -/
def pySplitAux : List Char → List Char → List Str
  | [], cur => if cur = [] then [] else [cur.reverse]
  | c :: t, cur =>
    if pyIsSpace c then
      (if cur = [] then pySplitAux t [] else cur.reverse :: pySplitAux t [])
    else pySplitAux t (c :: cur)

/-- Python `str.split()` with no argument: split on whitespace runs,
dropping empty pieces. -/
def pySplit (l : Str) : List Str := pySplitAux l []

/-- Python `" ".join(xs)`. -/
def joinSpace : List Str → Str
  | [] => []
  | [x] => x
  | x :: xs => x ++ (' ' :: joinSpace xs)

/-- The word loop shared by both copies of `_wrap_to_n_lines`: greedily
extend the current line `cur` with the next word while the candidate
`(cur + " " + w).strip()` still fits, otherwise flush `cur` (when
non-empty) and start a new line with the word. -/
def wrapLoop (W : Str → Int) (maxW : Int) :
    List Str → Str → List Str → List Str
  | [], cur, lines => if cur ≠ [] then lines ++ [cur] else lines
  | wd :: rest, cur, lines =>
    let cand := pyStrip (cur ++ (' ' :: wd))
    if W cand ≤ maxW then wrapLoop W maxW rest cand lines
    else wrapLoop W maxW rest wd (if cur ≠ [] then lines ++ [cur] else lines)

/-- The list `lines` computed by `_wrap_to_n_lines` before the
limit-to-`n` step: word-wrap of the stripped text. -/
def wrapLines (W : Str → Int) (maxW : Int) (text : Str) : List Str :=
  wrapLoop W maxW (pySplit (pyStrip text)) [] []

/-- `_wrap_to_n_lines` from `tools/puls_renderer/results_renderer.py`:
wrap to exactly `n` lines, truncating the overflow tail line with
`_truncate_line`. -/
def wrap_to_n_lines (W : Str → Int) (text : Str) (maxW : Int) (n : Int) :
    List Str :=
  let text := pyStrip text
  if text = [] then pyRepeat [] n
  else
    let lines := wrapLoop W maxW (pySplit text) [] []
    if (lines.length : Int) ≤ n then
      pyTake (lines ++ pyRepeat [] (n - (lines.length : Int))) n
    else
      pyTake lines (n - 1) ++
        [truncate_line W (joinSpace (pyDrop lines (n - 1))) maxW]

/-- `_wrap_to_n_lines` from `src/modules/puls_renderer/results_renderer.py`:
identical to the `tools` copy except that the overflow tail line is NOT
truncated (`# zu viele: n-1 behalten, Rest als letzte Zeile (ohne
Truncation)`). -/
def wrap_to_n_lines_modules (W : Str → Int) (text : Str) (maxW : Int)
    (n : Int) : List Str :=
  let text := pyStrip text
  if text = [] then pyRepeat [] n
  else
    let lines := wrapLoop W maxW (pySplit text) [] []
    if (lines.length : Int) ≤ n then
      pyTake (lines ++ pyRepeat [] (n - (lines.length : Int))) n
    else
      pyTake lines (n - 1) ++ [joinSpace (pyDrop lines (n - 1))]

/-- A concrete width measure for witnesses and counterexamples: the number
of characters of the string. -/
def lenW : Str → Int := fun l => (l.length : Int)

/-! ## `results_renderer.convert_spieltag_json_to_results` -/

/-- Python `s.replace("ü", "ue")` (a single-character key, so it expands
each occurrence independently). -/
def pyReplUe : Str → Str
  | [] => []
  | c :: t => if c = 'ü' then 'u' :: 'e' :: pyReplUe t else c :: pyReplUe t

/-- The inner `norm_conf` of `convert_spieltag_json_to_results`:
`s = (raw or "").strip().lower()`, then `s = s.replace("ü", "ue")`, then
match against the known conference spellings. -/
def norm_conf (raw : Option Str) : Str :=
  let s := pyLower (pyStrip (raw.getD []))
  let s := pyReplUe s
  if s = "nord".data ∨ s = "north".data then "north".data
  else if s = "sued".data ∨ s = "süd".data ∨ s = "south".data then
    "south".data
  else []

/-- One entry of `spieltag_json["results"]`.  `none` models a missing key
or a JSON `null` (both make `r.get(...)` return Python `None`). -/
structure RawResult where
  home_team : Option Str
  home : Option Str
  away_team : Option Str
  away : Option Str
  goals_home : Option Int
  g_home : Option Int
  goals_away : Option Int
  g_away : Option Int
  conference : Option Str
deriving DecidableEq, Repr

/-- Python string fallback `a or b`: `a` when it is present and non-empty,
`b` otherwise. -/
def pyOrS (a : Option Str) (b : Str) : Str :=
  match a with
  | none => b
  | some s => if s = [] then b else s

/-- A normalised game record as built in the loop of
`convert_spieltag_json_to_results`. -/
structure Game where
  home_name : Str
  away_name : Str
  goals_home : Int
  goals_away : Int
  conference : Str
deriving DecidableEq, Repr

/-- The loop body of `convert_spieltag_json_to_results`: team names via
`r.get("home_team") or r.get("home") or ""`, goals via
`gh = r.get("goals_home"); if gh is None: gh = r.get("g_home")` followed
by `int(gh or 0)` (which equals `gh` for every integer, `0` for `None`),
and the normalised conference. -/
def toGame (r : RawResult) : Game where
  home_name := pyOrS r.home_team (pyOrS r.home [])
  away_name := pyOrS r.away_team (pyOrS r.away [])
  goals_home := (match r.goals_home with
    | none => r.g_home
    | some v => some v).getD 0
  goals_away := (match r.goals_away with
    | none => r.g_away
    | some v => some v).getD 0
  conference := norm_conf r.conference

/-- The top-level `spieltag_json` dictionary.  `saison`/`spieltag` pass
through `int(... or 0)`, modelled by `Option.getD 0` (equal for every
integer value since `0 or 0 == 0`); a missing/`None`/empty `results` and
an empty list coincide after `... or []`. -/
structure SpieltagJson where
  saison : Option Int
  spieltag : Option Int
  results : List RawResult
deriving DecidableEq, Repr

/-- The dictionary returned by `convert_spieltag_json_to_results`. -/
structure ResultsData where
  saison : Int
  spieltag : Int
  nord : List Game
  sued : List Game
deriving DecidableEq, Repr

/-- `all_games` of `convert_spieltag_json_to_results`. -/
def allGames (j : SpieltagJson) : List Game := j.results.map toGame

/-- The games whose normalised conference is `"north"`, in input order. -/
def nordFiltered (j : SpieltagJson) : List Game :=
  (allGames j).filter (fun g => decide (g.conference = "north".data))

/-- The games whose normalised conference is `"south"`, in input order. -/
def suedFiltered (j : SpieltagJson) : List Game :=
  (allGames j).filter (fun g => decide (g.conference = "south".data))

/-- `convert_spieltag_json_to_results`: group games by normalised
conference, then apply the three sequential fallback `if`s that reassign
`nord = all_games[:5]` and `sued = all_games[5:]`. -/
def convert_spieltag_json_to_results (j : SpieltagJson) : ResultsData :=
  let all_games := allGames j
  let ns0 := (nordFiltered j, suedFiltered j)
  let ns1 := if ns0.1.length = 0 ∧ ns0.2.length = 0 ∧ all_games.length = 10
    then (all_games.take 5, all_games.drop 5) else ns0
  let ns2 := if ns1.1.length = 0 ∧ ns1.2.length = 10
    then (all_games.take 5, all_games.drop 5) else ns1
  let ns3 := if ns2.1.length = 10 ∧ ns2.2.length = 0
    then (all_games.take 5, all_games.drop 5) else ns2
  { saison := j.saison.getD 0
    spieltag := j.spieltag.getD 0
    nord := ns3.1
    sued := ns3.2 }

/-- A results record with only `home`/`away`/`conference` set, used by
concrete instances below. -/
def rawResS (conf : Str) : RawResult :=
  ⟨none, some "h".data, none, some "a".data, none, none, none, none,
    some conf⟩

/-- Eleven results: ten in conference `sued`, one unknown. -/
def spieltagElevenInput : SpieltagJson :=
  ⟨some 2024, some 7,
    List.replicate 10 (rawResS "sued".data) ++ [rawResS "x".data]⟩

/-- Two results, one per conference. -/
def spieltagMixedInput : SpieltagJson :=
  ⟨none, none, [rawResS "nord".data, rawResS "sued".data]⟩

/-! ## `adapter.py`: slugify and the generator JSON adapter -/

/-- The `UMLAUT_MAP` replacement of `slugify_team`, applied per character
(each key is a single character and no replacement output contains a key,
so the sequential `str.replace` calls equal this expansion). -/
def umlautExpand (c : Char) : Str :=
  if c = 'ä' then "ae".data
  else if c = 'ö' then "oe".data
  else if c = 'ü' then "ue".data
  else if c = 'Ä' then "ae".data
  else if c = 'Ö' then "oe".data
  else if c = 'Ü' then "ue".data
  else if c = 'ß' then "ss".data
  else [c]

/-- Models `unicodedata.normalize("NFKD", ·)` per character for the Latin
accented characters appearing in this repository's team names (identity
elsewhere): decompose into base character plus combining mark. -/
def pyNFKDChar (c : Char) : Str :=
  if c = 'é' then ['e', Char.ofNat 0x301]
  else if c = 'è' then ['e', Char.ofNat 0x300]
  else if c = 'á' then ['a', Char.ofNat 0x301]
  else if c = 'à' then ['a', Char.ofNat 0x300]
  else [c]

/-- Models `unicodedata.combining(c) != 0`: combining diacritical marks
(U+0300–U+036F). -/
def isCombiningMark (c : Char) : Bool :=
  0x300 ≤ c.toNat ∧ c.toNat ≤ 0x36F

/-- Characters kept by `re.sub(r"[^a-z0-9\s-]", "", ·)`. -/
def slugKeep (c : Char) : Bool :=
  ('a' ≤ c ∧ c ≤ 'z') ∨ ('0' ≤ c ∧ c ≤ '9') ∨ pyIsSpace c ∨ c = '-'

/-- `re.sub(r"[\s_]+", "-", ·)`: each maximal run of whitespace or
underscores becomes a single dash (`inRun` tracks being inside a run). -/
def subWsRuns (inRun : Bool) : Str → Str
  | [] => []
  | c :: t =>
    if pyIsSpace c ∨ c = '_' then
      (if inRun then subWsRuns true t else '-' :: subWsRuns true t)
    else c :: subWsRuns false t

/-- `re.sub(r"-{2,}", "-", ·)`: collapse dash runs; a run of length one is
also left as a single dash, so every run becomes one dash. -/
def collapseDashes (inRun : Bool) : Str → Str
  | [] => []
  | c :: t =>
    if c = '-' then
      (if inRun then collapseDashes true t else '-' :: collapseDashes true t)
    else c :: collapseDashes false t

/-- `adapter.slugify_team`: umlaut expansion, NFKD normalisation with
combining marks dropped, `lower().strip()`, removal of characters outside
`[a-z0-9\s-]`, whitespace runs to dashes, dash runs collapsed. -/
def slugify_team (name : Str) : Str :=
  let name := (name.map umlautExpand).flatten
  let name := (name.map pyNFKDChar).flatten
  let name := name.filter (fun c => !isCombiningMark c)
  let name := pyStrip (pyLower name)
  let name := name.filter slugKeep
  let name := subWsRuns false name
  collapseDashes false name

/-- One entry of the generator JSON's `results` (keys `home` and `away`
are accessed unconditionally, `conference` through `r.get`). -/
structure GenResult where
  home : Str
  away : Str
  conference : Option Str
deriving DecidableEq, Repr

/-- The generator JSON: `spieltag` accessed unconditionally, `timestamp`
via `data.get("timestamp", "")`. -/
structure GenData where
  spieltag : Int
  timestamp : Str
  results : List GenResult
deriving DecidableEq, Repr

/-- An `{"home": ..., "away": ...}` item of the matchday dictionary. -/
structure MatchdayPair where
  home : Str
  away : Str
deriving DecidableEq, Repr

/-- The dictionary returned by `convert_generator_json_to_matchday`. -/
structure MatchdayData where
  spieltag : Int
  date : Str
  nord : List MatchdayPair
  sued : List MatchdayPair
deriving DecidableEq, Repr

/-- The two `ValueError`s of `convert_generator_json_to_matchday`, carrying
the data interpolated into their messages. -/
inductive GenError where
  | unknownConference (raw : Option Str)
  | wrongCounts (nord sued : Nat)
deriving DecidableEq, Repr

/-- The item `{"home": slugify_team(r["home"]), "away": slugify_team(r["away"])}`. -/
def slugPair (r : GenResult) : MatchdayPair :=
  ⟨slugify_team r.home, slugify_team r.away⟩

/-- `conf = r.get("conference", "").lower()`. -/
def genConf (r : GenResult) : Str := pyLower (r.conference.getD [])

/-- `conf == "nord"`. -/
def isNordRes (r : GenResult) : Bool := decide (genConf r = "nord".data)

/-- `conf in ("süd", "sued")`. -/
def isSuedRes (r : GenResult) : Bool :=
  decide (genConf r = "süd".data ∨ genConf r = "sued".data)

/-- A result whose conference matches neither conference test, i.e. the
loop raises `ValueError` on it. -/
def badConf (r : GenResult) : Bool := !(isNordRes r || isSuedRes r)

/-- The `for r in data["results"]` loop of
`convert_generator_json_to_matchday`, accumulating `nord` and `sued` and
raising on an unknown conference. -/
def genLoop : List GenResult → List MatchdayPair → List MatchdayPair →
    Except GenError (List MatchdayPair × List MatchdayPair)
  | [], nord, sued => .ok (nord, sued)
  | r :: rest, nord, sued =>
    let conf := genConf r
    if conf = "nord".data then genLoop rest (nord ++ [slugPair r]) sued
    else if conf = "süd".data ∨ conf = "sued".data then
      genLoop rest nord (sued ++ [slugPair r])
    else .error (.unknownConference r.conference)

/-- `convert_generator_json_to_matchday`: the date is
`timestamp.split("T")[0] if "T" in timestamp else timestamp` (the text
before the first `'T'`, i.e. `takeWhile`), then the loop, then the
5-and-5 count check. -/
def convert_generator_json_to_matchday (data : GenData) :
    Except GenError MatchdayData :=
  let date := if 'T' ∈ data.timestamp then
      data.timestamp.takeWhile (fun c => c != 'T')
    else data.timestamp
  match genLoop data.results [] [] with
  | .error e => .error e
  | .ok (nord, sued) =>
    if nord.length ≠ 5 ∨ sued.length ≠ 5 then
      .error (.wrongCounts nord.length sued.length)
    else
      .ok ⟨data.spieltag, date, nord, sued⟩

/-- A generator result with all three fields set. -/
def genRes3 (h a conf : Str) : GenResult := ⟨h, a, some conf⟩

/-- A well-formed generator input: five `nord` and five `sued` results. -/
def genOkInput : GenData :=
  ⟨3, "2024-01-02T10:00".data,
    List.replicate 5 (genRes3 "HC Alpha".data "SC Beta".data "nord".data) ++
    List.replicate 5 (genRes3 "EV Gamma".data "EC Delta".data "sued".data)⟩

/-- The matchday dictionary produced from `genOkInput`. -/
def genOkOutput : MatchdayData :=
  ⟨3, "2024-01-02".data,
    List.replicate 5 ⟨"hc-alpha".data, "sc-beta".data⟩,
    List.replicate 5 ⟨"ev-gamma".data, "ec-delta".data⟩⟩

/-- A generator input with an unknown conference. -/
def genBadInput : GenData :=
  ⟨1, [], [genRes3 "A".data "B".data "ost".data]⟩

/-! ## `app_deltanet._hashtags` -/

/-- The hashtag configuration `deltanet_hashtags.json`, modelled by its
two lookups with their `{}`/`[]` defaults already applied:
`defaults[platform]` and `by_pillar[pillar_id][platform]`. -/
structure HashtagsCfg where
  defaults : Str → List Str
  by_pillar : Str → Str → List Str

/-- The `seen`/`uniq` deduplication loop of `_hashtags`. -/
def dedupAux (seen : List Str) : List Str → List Str
  | [] => []
  | h :: t => if h ∈ seen then dedupAux seen t else h :: dedupAux (h :: seen) t

/-- `app_deltanet._hashtags`: platform defaults, then the pillar's
platform hashtags, deduplicated keeping first occurrences. -/
def _hashtags (platform pillar_id : Str) (cfg : HashtagsCfg) : List Str :=
  let out := cfg.defaults platform ++ cfg.by_pillar pillar_id platform
  dedupAux [] out

/-- Specification-side first-occurrence deduplication, written from the
claim's words ("each hashtag occurs exactly once, at the position of its
first occurrence"): keep the head, drop its later duplicates, recurse. -/
def dedupSpec : List Str → List Str
  | [] => []
  | h :: t => h :: dedupSpec (t.filter (fun x => decide (x ≠ h)))
termination_by l => l.length
decreasing_by
  simp only [List.length_cons]
  exact Nat.lt_succ_of_le (List.length_filter_le _ _)

/-! ## Theorems -/

theorem pyDateLt_irrefl (d : PyDate) : pyDateLt d d = false := by
  simp [pyDateLt]

/-- C1: when a brand's `founding_date` parses as an ISO date,
`validate_release_date` returns `(False, message)` exactly when the release
date is strictly before the founding date, returns `(True, "OK")`
otherwise, and in particular accepts a release dated on the founding date
itself. -/
theorem validate_release_date_spec (brand : Brand) (d f : PyDate)
    (h : fromisoformat brand.founding_date = some f) :
    ((∃ m, validate_release_date brand d = some (false, m)) ↔
      pyDateLt d f = true) ∧
    (pyDateLt d f = false →
      validate_release_date brand d = some (true, "OK".data)) ∧
    validate_release_date brand f = some (true, "OK".data) := by
  refine ⟨?_, ?_, ?_⟩
  · constructor
    · rintro ⟨m, hm⟩
      by_contra hlt
      simp only [validate_release_date, h] at hm
      rw [eq_false_of_ne_true hlt] at hm
      simp at hm
    · intro hlt
      refine ⟨releaseDateMessage d f, ?_⟩
      simp [validate_release_date, h, hlt]
  · intro hlt
    simp [validate_release_date, h, hlt]
  · simp [validate_release_date, h, pyDateLt_irrefl]

/-- Witness for `validate_release_date_spec` at a concrete brand whose
founding date is 2020-05-17. -/
theorem validate_release_date_spec_witness :
    (∃ m, validate_release_date ⟨"b1".data, "2020-05-17".data⟩ ⟨2019, 1, 1⟩ =
      some (false, m)) ∧
    validate_release_date ⟨"b1".data, "2020-05-17".data⟩ ⟨2020, 5, 17⟩ =
      some (true, "OK".data) := by
  have h1 := validate_release_date_spec ⟨"b1".data, "2020-05-17".data⟩
    ⟨2019, 1, 1⟩ ⟨2020, 5, 17⟩ (by decide)
  have h2 := validate_release_date_spec ⟨"b1".data, "2020-05-17".data⟩
    ⟨2020, 5, 17⟩ ⟨2020, 5, 17⟩ (by decide)
  exact ⟨h1.1.mpr (by decide), h2.2.2⟩

/-- C10: `delete_release` removes exactly the records whose `id` equals
`release_id`, keeps all other records in their original relative order
(the result is a sublist of the input), and leaves the list unchanged when
no record carries that id. -/
theorem delete_release_spec (releases : List ProductRelease) (release_id : Str) :
    (∀ r, r ∈ delete_release releases release_id ↔
      (r ∈ releases ∧ r.id ≠ release_id)) ∧
    (delete_release releases release_id).Sublist releases ∧
    ((∀ r ∈ releases, r.id ≠ release_id) →
      delete_release releases release_id = releases) := by
  refine ⟨?_, ?_, ?_⟩
  · intro r
    simp [delete_release]
  · exact List.filter_sublist releases
  · intro hnone
    apply List.filter_eq_self.mpr
    intro r hr
    exact decide_eq_true (hnone r hr)

/-- Witness for `delete_release_spec` on a concrete two-element store. -/
theorem delete_release_spec_witness :
    ((⟨"b".data, "2021-01-01".data, "x".data, "x".data, "t".data, "p".data,
        [], none⟩ : ProductRelease) ∈
      delete_release
        [⟨"a".data, "2020-01-01".data, "x".data, "x".data, "t".data, "p".data,
            [], none⟩,
         ⟨"b".data, "2021-01-01".data, "x".data, "x".data, "t".data, "p".data,
            [], none⟩] "a".data) ∧
    ((⟨"a".data, "2020-01-01".data, "x".data, "x".data, "t".data, "p".data,
        [], none⟩ : ProductRelease) ∉
      delete_release
        [⟨"a".data, "2020-01-01".data, "x".data, "x".data, "t".data, "p".data,
            [], none⟩,
         ⟨"b".data, "2021-01-01".data, "x".data, "x".data, "t".data, "p".data,
            [], none⟩] "a".data) ∧
    delete_release
        [⟨"a".data, "2020-01-01".data, "x".data, "x".data, "t".data, "p".data,
            [], none⟩] "z".data =
      [⟨"a".data, "2020-01-01".data, "x".data, "x".data, "t".data, "p".data,
          [], none⟩] := by
  refine ⟨?_, ?_, ?_⟩
  · exact ((delete_release_spec _ _).1 _).mpr (by decide)
  · intro h
    exact absurd (((delete_release_spec _ _).1 _).mp h).2 (by decide)
  · exact (delete_release_spec _ _).2.2 (by decide)

theorem truncSearchAux_inv (W : Str → Int) (maxW : Int) (text : Str) :
    ∀ fuel lo hi, (lo = 0 ∨ W (truncCand text (lo - 1)) ≤ maxW) →
      (truncSearchAux W maxW text fuel lo hi = 0 ∨
       W (truncCand text (truncSearchAux W maxW text fuel lo hi - 1)) ≤ maxW) := by
  intro fuel
  induction fuel with
  | zero =>
    intro lo hi h
    simpa [truncSearchAux] using h
  | succ fuel ih =>
    intro lo hi h
    rw [truncSearchAux]
    by_cases hlh : lo < hi
    · simp only [if_pos hlh]
      by_cases hc : W (truncCand text ((lo + hi) / 2)) ≤ maxW
      · simp only [if_pos hc]
        exact ih _ _ (Or.inr (by simpa using hc))
      · simp only [if_neg hc]
        exact ih _ _ h
    · simp only [if_neg hlh]
      exact h

/-- C7 (amended): `_truncate_line` returns the text unchanged when it
already fits; otherwise (keeping the claim's monotonicity hypothesis on
candidate widths) it returns a right-stripped prefix of the text followed
by `"…"`, and the returned string fits within `max_w` provided the bare
ellipsis candidate itself fits.  (The original claim's unconditional width
bound is refuted by `truncate_line_claim_counterexample`.) -/
theorem truncate_line_spec (W : Str → Int) (text : Str) (maxW : Int) :
    (W text ≤ maxW → truncate_line W text maxW = text) ∧
    (¬ W text ≤ maxW →
      (∀ j, j ≤ text.length → ∀ i, i ≤ j →
        W (truncCand text i) ≤ W (truncCand text j)) →
      ((∃ k, truncate_line W text maxW = pyRstrip (text.take k) ++ "…".data) ∧
       (W (truncCand text 0) ≤ maxW →
        W (truncate_line W text maxW) ≤ maxW))) := by
  constructor
  · intro h
    simp [truncate_line, h]
  · intro h _hmono
    constructor
    · refine ⟨truncSearchAux W maxW text (text.length + 1) 0 text.length - 1, ?_⟩
      simp [truncate_line, h, truncCand]
    · intro hell
      have hres : truncate_line W text maxW =
          truncCand text
            (truncSearchAux W maxW text (text.length + 1) 0 text.length - 1) := by
        simp [truncate_line, h]
      rw [hres]
      rcases truncSearchAux_inv W maxW text (text.length + 1) 0 text.length
          (Or.inl rfl) with h0 | hP
      · rw [h0]
        simpa using hell
      · exact hP

/-- Counterexample to C7 as stated: with the character-count measure, a
two-character text and `max_w = 0`, the candidate widths are monotone and
the text does not fit, yet the returned string (the bare `"…"`) still
exceeds `max_w`. -/
theorem truncate_line_claim_counterexample :
    (∀ j, j ≤ ("ab".data).length → ∀ i, i ≤ j →
      lenW (truncCand "ab".data i) ≤ lenW (truncCand "ab".data j)) ∧
    ¬ lenW "ab".data ≤ 0 ∧
    ¬ lenW (truncate_line lenW "ab".data 0) ≤ 0 := by decide

/-- Witness for `truncate_line_spec`: a fitting text is returned
unchanged, and the truncation of `"hello world"` to width 7 under the
character-count measure is a stripped prefix plus `"…"` that fits. -/
theorem truncate_line_spec_witness :
    truncate_line lenW "hi".data 99 = "hi".data ∧
    (∃ k, truncate_line lenW "hello world".data 7 =
      pyRstrip ("hello world".data.take k) ++ "…".data) ∧
    lenW (truncate_line lenW "hello world".data 7) ≤ 7 := by
  have h1 := (truncate_line_spec lenW "hi".data 99).1 (by decide)
  have h2 := (truncate_line_spec lenW "hello world".data 7).2 (by decide)
    (by decide)
  exact ⟨h1, h2.1, h2.2 (by decide)⟩

/-- C6 (amended): for positive `max_w` and `n`, `_wrap_to_n_lines` (tools
copy) returns exactly `n` lines; empty or whitespace-only text yields `n`
empty strings; when the word wrap produces at most `n` lines they are
padded with empty strings to length `n`; when it produces more, the first
`n - 1` wrapped lines are kept and the remaining lines are joined and then
truncated with `_truncate_line` into the single final line.  (The original
claim's untruncated final line is refuted by
`wrap_to_n_lines_claim_counterexample`.) -/
theorem wrap_to_n_lines_spec (W : Str → Int) (text : Str) (maxW n : Int)
    (hn : 0 < n) (_hw : 0 < maxW) :
    (wrap_to_n_lines W text maxW n).length = n.toNat ∧
    (pyStrip text = [] →
      wrap_to_n_lines W text maxW n = List.replicate n.toNat []) ∧
    (pyStrip text ≠ [] →
      ((wrapLines W maxW text).length ≤ n.toNat →
        wrap_to_n_lines W text maxW n =
          wrapLines W maxW text ++
            List.replicate (n.toNat - (wrapLines W maxW text).length) []) ∧
      (n.toNat < (wrapLines W maxW text).length →
        wrap_to_n_lines W text maxW n =
          (wrapLines W maxW text).take (n.toNat - 1) ++
            [truncate_line W
              (joinSpace ((wrapLines W maxW text).drop (n.toNat - 1)))
              maxW])) := by
  by_cases hstrip : pyStrip text = []
  · refine ⟨?_, fun _ => ?_, fun hne => absurd hstrip hne⟩
    · simp [wrap_to_n_lines, hstrip, pyRepeat]
    · simp [wrap_to_n_lines, hstrip, pyRepeat]
  · have hwrap : wrap_to_n_lines W text maxW n =
        (if ((wrapLines W maxW text).length : Int) ≤ n then
          pyTake (wrapLines W maxW text ++
            pyRepeat [] (n - ((wrapLines W maxW text).length : Int))) n
        else
          pyTake (wrapLines W maxW text) (n - 1) ++
            [truncate_line W
              (joinSpace (pyDrop (wrapLines W maxW text) (n - 1))) maxW]) := by
      simp only [wrap_to_n_lines, wrapLines]
      rw [if_neg hstrip]
    by_cases hle : ((wrapLines W maxW text).length : Int) ≤ n
    · have h1 : wrap_to_n_lines W text maxW n =
          wrapLines W maxW text ++
            List.replicate (n.toNat - (wrapLines W maxW text).length) [] := by
        rw [hwrap, if_pos hle]
        simp only [pyRepeat, pyTake]
        rw [if_neg (by omega : ¬ n < 0)]
        have hrep : (n - ((wrapLines W maxW text).length : Int)).toNat
            = n.toNat - (wrapLines W maxW text).length := by omega
        rw [hrep]
        apply List.take_of_length_le
        simp
        omega
      refine ⟨?_, fun h => absurd h hstrip,
        fun _ => ⟨fun _ => h1, fun hgt => absurd hgt (by omega)⟩⟩
      rw [h1]
      simp
      omega
    · have h2 : wrap_to_n_lines W text maxW n =
          (wrapLines W maxW text).take (n.toNat - 1) ++
            [truncate_line W
              (joinSpace ((wrapLines W maxW text).drop (n.toNat - 1))) maxW] := by
        rw [hwrap, if_neg hle]
        simp only [pyTake, pyDrop]
        rw [if_neg (by omega : ¬ n - 1 < 0), if_neg (by omega : ¬ n - 1 < 0)]
        have h1n : (n - 1).toNat = n.toNat - 1 := by omega
        rw [h1n]
      refine ⟨?_, fun h => absurd h hstrip,
        fun _ => ⟨fun hle2 => absurd hle2 (by omega), fun _ => h2⟩⟩
      rw [h2]
      simp [List.length_take]
      omega

/-- Counterexample to C6 as stated: with the character-count measure,
`max_w = 3` and `n = 2`, the text `"aa bb cc dd"` wraps into 4 lines, the
remaining words join to `"bb cc dd"`, but the returned final line is the
truncated `"bb…"`, not that join. -/
theorem wrap_to_n_lines_claim_counterexample :
    wrap_to_n_lines lenW "aa bb cc dd".data 3 2 = ["aa".data, "bb…".data] ∧
    joinSpace ((wrapLines lenW 3 "aa bb cc dd".data).drop 1) =
      "bb cc dd".data ∧
    ("bb…".data : Str) ≠ "bb cc dd".data := by decide

/-- Witness for `wrap_to_n_lines_spec` at the character-count measure,
`"aa bb cc dd"`, `max_w = 3`, `n = 2` (the overflow case). -/
theorem wrap_to_n_lines_spec_witness :
    (wrap_to_n_lines lenW "aa bb cc dd".data 3 2).length = 2 ∧
    wrap_to_n_lines lenW "aa bb cc dd".data 3 2 =
      (wrapLines lenW 3 "aa bb cc dd".data).take 1 ++
        [truncate_line lenW
          (joinSpace ((wrapLines lenW 3 "aa bb cc dd".data).drop 1)) 3] := by
  have h := wrap_to_n_lines_spec lenW "aa bb cc dd".data 3 2
    (by decide) (by decide)
  exact ⟨h.1, (h.2.2 (by decide)).2 (by decide)⟩

/-- C9 (amended): the two copies of `_wrap_to_n_lines` agree whenever the
stripped text is empty or the word wrap produces at most `n` lines; when
it produces more than `n` lines, both return the first `n - 1` lines plus
a final line made of the joined remainder, except that the `tools` copy
additionally truncates that final line with `_truncate_line`.  (Their
extensional equality as claimed is refuted by
`wrap_copies_counterexample`.) -/
theorem wrap_copies_spec (W : Str → Int) (text : Str) (maxW n : Int) :
    ((pyStrip text = [] ∨ ((wrapLines W maxW text).length : Int) ≤ n) →
      wrap_to_n_lines W text maxW n = wrap_to_n_lines_modules W text maxW n) ∧
    (pyStrip text ≠ [] → ¬ ((wrapLines W maxW text).length : Int) ≤ n →
      (wrap_to_n_lines_modules W text maxW n =
        pyTake (wrapLines W maxW text) (n - 1) ++
          [joinSpace (pyDrop (wrapLines W maxW text) (n - 1))] ∧
       wrap_to_n_lines W text maxW n =
        pyTake (wrapLines W maxW text) (n - 1) ++
          [truncate_line W
            (joinSpace (pyDrop (wrapLines W maxW text) (n - 1))) maxW])) := by
  constructor
  · rintro (hstrip | hle)
    · simp [wrap_to_n_lines, wrap_to_n_lines_modules, hstrip]
    · by_cases hstrip : pyStrip text = []
      · simp [wrap_to_n_lines, wrap_to_n_lines_modules, hstrip]
      · have h1 : wrap_to_n_lines W text maxW n =
            pyTake (wrapLines W maxW text ++
              pyRepeat [] (n - ((wrapLines W maxW text).length : Int))) n := by
          simp only [wrap_to_n_lines, wrapLines]
          rw [if_neg hstrip, if_pos (by simpa [wrapLines] using hle)]
        have h2 : wrap_to_n_lines_modules W text maxW n =
            pyTake (wrapLines W maxW text ++
              pyRepeat [] (n - ((wrapLines W maxW text).length : Int))) n := by
          simp only [wrap_to_n_lines_modules, wrapLines]
          rw [if_neg hstrip, if_pos (by simpa [wrapLines] using hle)]
        rw [h1, h2]
  · intro hstrip hgt
    constructor
    · simp only [wrap_to_n_lines_modules, wrapLines]
      rw [if_neg hstrip, if_neg (by simpa [wrapLines] using hgt)]
    · simp only [wrap_to_n_lines, wrapLines]
      rw [if_neg hstrip, if_neg (by simpa [wrapLines] using hgt)]

/-- Counterexample to C9 as stated: the two copies differ at the
character-count measure, `"aa bb cc dd"`, `max_w = 3`, `n = 2`. -/
theorem wrap_copies_counterexample :
    wrap_to_n_lines lenW "aa bb cc dd".data 3 2 ≠
      wrap_to_n_lines_modules lenW "aa bb cc dd".data 3 2 := by decide

/-- Witness for `wrap_copies_spec`: agreement on a text that wraps into 2
lines, and the overflow shape of the modules copy on `"aa bb cc dd"`. -/
theorem wrap_copies_spec_witness :
    wrap_to_n_lines lenW "aa bb".data 3 2 =
      wrap_to_n_lines_modules lenW "aa bb".data 3 2 ∧
    wrap_to_n_lines_modules lenW "aa bb cc dd".data 3 2 =
      pyTake (wrapLines lenW 3 "aa bb cc dd".data) (2 - 1) ++
        [joinSpace (pyDrop (wrapLines lenW 3 "aa bb cc dd".data) (2 - 1))] := by
  have h1 := (wrap_copies_spec lenW "aa bb".data 3 2).1 (Or.inr (by decide))
  have h2 := (wrap_copies_spec lenW "aa bb cc dd".data 3 2).2
    (by decide) (by decide)
  exact ⟨h1, h2.1⟩

theorem replUe_eq_nil (l : Str) : pyReplUe l = [] ↔ l = [] := by
  cases l with
  | nil => simp [pyReplUe]
  | cons c t =>
    by_cases hc : c = 'ü' <;> simp [pyReplUe, hc]

theorem uuml_not_mem_replUe (l : Str) : 'ü' ∉ pyReplUe l := by
  induction l with
  | nil => simp [pyReplUe]
  | cons c t ih =>
    by_cases hc : c = 'ü'
    · subst hc
      intro h
      have hrepl : pyReplUe ('ü' :: t) = 'u' :: 'e' :: pyReplUe t := rfl
      rw [hrepl] at h
      rcases List.mem_cons.mp h with h1 | h2
      · exact absurd h1 (by decide)
      · rcases List.mem_cons.mp h2 with h3 | h4
        · exact absurd h3 (by decide)
        · exact ih h4
    · intro h
      have hrepl : pyReplUe (c :: t) = c :: pyReplUe t := by
        simp [pyReplUe, hc]
      rw [hrepl] at h
      rcases List.mem_cons.mp h with h1 | h2
      · exact hc h1.symm
      · exact ih h2

theorem replUe_eq_cons (l : Str) (c : Char) (m : Str) :
    pyReplUe l = c :: m ↔
      ((c ≠ 'ü' ∧ ∃ t, l = c :: t ∧ pyReplUe t = m) ∨
       (c = 'u' ∧ ∃ t, l = 'ü' :: t ∧ m = 'e' :: pyReplUe t)) := by
  cases l with
  | nil =>
    constructor
    · intro h
      simp [pyReplUe] at h
    · rintro (⟨-, t, ht, -⟩ | ⟨-, t, ht, -⟩) <;> simp at ht
  | cons d t =>
    by_cases hd : d = 'ü'
    · subst hd
      have hrepl : pyReplUe ('ü' :: t) = 'u' :: 'e' :: pyReplUe t := rfl
      rw [hrepl]
      constructor
      · intro h
        rw [List.cons.injEq] at h
        exact Or.inr ⟨h.1.symm, t, rfl, h.2.symm⟩
      · rintro (⟨hne, t', ht', -⟩ | ⟨hcu, t', ht', hm⟩)
        · rw [List.cons.injEq] at ht'
          exact absurd ht'.1.symm hne
        · rw [List.cons.injEq] at ht'
          subst hcu
          rw [hm, ht'.2]
    · have hrepl : pyReplUe (d :: t) = d :: pyReplUe t := by
        simp [pyReplUe, hd]
      rw [hrepl]
      constructor
      · intro h
        rw [List.cons.injEq] at h
        refine Or.inl ⟨?_, t, ?_, h.2⟩
        · rw [← h.1]; exact hd
        · rw [h.1]
      · rintro (⟨hne, t', ht', hrep⟩ | ⟨hcu, t', ht', -⟩)
        · rw [List.cons.injEq] at ht'
          rw [ht'.1, ht'.2, hrep]
        · rw [List.cons.injEq] at ht'
          exact absurd ht'.1 hd

theorem replUe_eq_nord (l : Str) : pyReplUe l = "nord".data ↔ l = "nord".data := by
  constructor
  · intro h
    replace h : pyReplUe l = ['n', 'o', 'r', 'd'] := h
    rw [replUe_eq_cons] at h
    rcases h with ⟨-, t1, hl1, h1⟩ | ⟨hc, -⟩
    · rw [replUe_eq_cons] at h1
      rcases h1 with ⟨-, t2, hl2, h2⟩ | ⟨hc, -⟩
      · rw [replUe_eq_cons] at h2
        rcases h2 with ⟨-, t3, hl3, h3⟩ | ⟨hc, -⟩
        · rw [replUe_eq_cons] at h3
          rcases h3 with ⟨-, t4, hl4, h4⟩ | ⟨hc, -⟩
          · rw [replUe_eq_nil] at h4
            subst h4; subst hl4; subst hl3; subst hl2; exact hl1
          · exact absurd hc (by decide)
        · exact absurd hc (by decide)
      · exact absurd hc (by decide)
    · exact absurd hc (by decide)
  · intro h
    subst h
    decide

theorem replUe_eq_north (l : Str) : pyReplUe l = "north".data ↔ l = "north".data := by
  constructor
  · intro h
    replace h : pyReplUe l = ['n', 'o', 'r', 't', 'h'] := h
    rw [replUe_eq_cons] at h
    rcases h with ⟨-, t1, hl1, h1⟩ | ⟨hc, -⟩
    · rw [replUe_eq_cons] at h1
      rcases h1 with ⟨-, t2, hl2, h2⟩ | ⟨hc, -⟩
      · rw [replUe_eq_cons] at h2
        rcases h2 with ⟨-, t3, hl3, h3⟩ | ⟨hc, -⟩
        · rw [replUe_eq_cons] at h3
          rcases h3 with ⟨-, t4, hl4, h4⟩ | ⟨hc, -⟩
          · rw [replUe_eq_cons] at h4
            rcases h4 with ⟨-, t5, hl5, h5⟩ | ⟨hc, -⟩
            · rw [replUe_eq_nil] at h5
              subst h5; subst hl5; subst hl4; subst hl3; subst hl2; exact hl1
            · exact absurd hc (by decide)
          · exact absurd hc (by decide)
        · exact absurd hc (by decide)
      · exact absurd hc (by decide)
    · exact absurd hc (by decide)
  · intro h
    subst h
    decide

theorem replUe_eq_south (l : Str) : pyReplUe l = "south".data ↔ l = "south".data := by
  constructor
  · intro h
    replace h : pyReplUe l = ['s', 'o', 'u', 't', 'h'] := h
    rw [replUe_eq_cons] at h
    rcases h with ⟨-, t1, hl1, h1⟩ | ⟨hc, -⟩
    · rw [replUe_eq_cons] at h1
      rcases h1 with ⟨-, t2, hl2, h2⟩ | ⟨hc, -⟩
      · rw [replUe_eq_cons] at h2
        rcases h2 with ⟨-, t3, hl3, h3⟩ | ⟨-, t3, hl3, h3⟩
        · rw [replUe_eq_cons] at h3
          rcases h3 with ⟨-, t4, hl4, h4⟩ | ⟨hc, -⟩
          · rw [replUe_eq_cons] at h4
            rcases h4 with ⟨-, t5, hl5, h5⟩ | ⟨hc, -⟩
            · rw [replUe_eq_nil] at h5
              subst h5; subst hl5; subst hl4; subst hl3; subst hl2; exact hl1
            · exact absurd hc (by decide)
          · exact absurd hc (by decide)
        · -- the 'u' here would come from an 'ü', but then the next output
          -- character would be 'e', not 't'
          exfalso
          have ht : ('t' : Char) = 'e' := by
            have := h3
            rw [List.cons.injEq] at this
            exact this.1
          exact absurd ht (by decide)
      · exact absurd hc (by decide)
    · exact absurd hc (by decide)
  · intro h
    subst h
    decide

theorem replUe_eq_sued (l : Str) :
    pyReplUe l = "sued".data ↔ (l = "sued".data ∨ l = "süd".data) := by
  constructor
  · intro h
    replace h : pyReplUe l = ['s', 'u', 'e', 'd'] := h
    rw [replUe_eq_cons] at h
    rcases h with ⟨-, t1, hl1, h1⟩ | ⟨hc, -⟩
    · rw [replUe_eq_cons] at h1
      rcases h1 with ⟨-, t2, hl2, h2⟩ | ⟨-, t2, hl2, h2⟩
      · rw [replUe_eq_cons] at h2
        rcases h2 with ⟨-, t3, hl3, h3⟩ | ⟨hc, -⟩
        · rw [replUe_eq_cons] at h3
          rcases h3 with ⟨-, t4, hl4, h4⟩ | ⟨hc, -⟩
          · rw [replUe_eq_nil] at h4
            subst h4; subst hl4; subst hl3; subst hl2
            exact Or.inl hl1
          · exact absurd hc (by decide)
        · exact absurd hc (by decide)
      · -- the branch where the 'u' comes from an 'ü'
        have h2' : pyReplUe t2 = ['d'] := by
          rw [List.cons.injEq] at h2
          exact h2.2.symm
        rw [replUe_eq_cons] at h2'
        rcases h2' with ⟨-, t3, hl3, h3⟩ | ⟨hc, -⟩
        · rw [replUe_eq_nil] at h3
          subst h3; subst hl3; subst hl2
          exact Or.inr hl1
        · exact absurd hc (by decide)
    · exact absurd hc (by decide)
  · rintro (h | h) <;> (subst h; decide)

/-- C3: `norm_conf` maps every input whose stripped, lowered form is
`"nord"` or `"north"` to `"north"`, whose stripped, lowered form is
`"sued"`, `"süd"` or `"south"` to `"south"`, and everything else
(including `None` and the empty string) to the empty string. -/
theorem norm_conf_spec (raw : Option Str) :
    norm_conf raw =
      (if pyLower (pyStrip (raw.getD [])) = "nord".data ∨
          pyLower (pyStrip (raw.getD [])) = "north".data then "north".data
       else if pyLower (pyStrip (raw.getD [])) = "sued".data ∨
          pyLower (pyStrip (raw.getD [])) = "süd".data ∨
          pyLower (pyStrip (raw.getD [])) = "south".data then "south".data
       else []) := by
  have H : ∀ s : Str,
      (if pyReplUe s = "nord".data ∨ pyReplUe s = "north".data then
        "north".data
       else if pyReplUe s = "sued".data ∨ pyReplUe s = "süd".data ∨
          pyReplUe s = "south".data then "south".data
       else []) =
      (if s = "nord".data ∨ s = "north".data then "north".data
       else if s = "sued".data ∨ s = "süd".data ∨ s = "south".data then
         "south".data
       else []) := by
    intro s
    have h1 : (pyReplUe s = "nord".data ∨ pyReplUe s = "north".data) ↔
        (s = "nord".data ∨ s = "north".data) := by
      rw [replUe_eq_nord, replUe_eq_north]
    have h2 : (pyReplUe s = "sued".data ∨ pyReplUe s = "süd".data ∨
        pyReplUe s = "south".data) ↔
        (s = "sued".data ∨ s = "süd".data ∨ s = "south".data) := by
      rw [replUe_eq_sued, replUe_eq_south]
      constructor
      · rintro ((h | h) | h | h)
        · exact Or.inl h
        · exact Or.inr (Or.inl h)
        · exfalso
          apply uuml_not_mem_replUe s
          rw [h]
          decide
        · exact Or.inr (Or.inr h)
      · rintro (h | h | h)
        · exact Or.inl (Or.inl h)
        · exact Or.inl (Or.inr h)
        · exact Or.inr (Or.inr h)
    simp only [h1, h2]
  simpa only [norm_conf] using H (pyLower (pyStrip (raw.getD [])))

/-- C2: the game record built by `convert_spieltag_json_to_results` takes
its home/away name from `home_team`/`away_team` when present and
non-empty and from `home`/`away` otherwise, and its goals from
`goals_home`/`goals_away` when present and non-`None` and from
`g_home`/`g_away` otherwise, defaulting to `0` when both are absent or
`None`. -/
theorem toGame_spec (r : RawResult) :
    ((toGame r).home_name =
      (match r.home_team with
       | some s => if s = [] then r.home.getD [] else s
       | none => r.home.getD [])) ∧
    ((toGame r).away_name =
      (match r.away_team with
       | some s => if s = [] then r.away.getD [] else s
       | none => r.away.getD [])) ∧
    ((toGame r).goals_home =
      (match r.goals_home with
       | some v => v
       | none => r.g_home.getD 0)) ∧
    ((toGame r).goals_away =
      (match r.goals_away with
       | some v => v
       | none => r.g_away.getD 0)) := by
  have hempty : ∀ o : Option Str, pyOrS o [] = o.getD [] := by
    intro o
    cases o with
    | none => rfl
    | some s =>
      cases s with
      | nil => simp [pyOrS]
      | cons c t => simp [pyOrS]
  refine ⟨?_, ?_, ?_, ?_⟩
  · have hL : (toGame r).home_name = pyOrS r.home_team (pyOrS r.home []) := rfl
    rw [hL]
    cases hht : r.home_team with
    | none =>
      show pyOrS r.home [] = r.home.getD []
      exact hempty r.home
    | some s =>
      by_cases hs : s = []
      · subst hs
        have h1 : pyOrS (some ([] : Str)) (pyOrS r.home []) = pyOrS r.home [] := by
          simp [pyOrS]
        rw [h1, hempty]
        show r.home.getD [] = if ([] : Str) = [] then r.home.getD [] else []
        rw [if_pos rfl]
      · have h1 : pyOrS (some s) (pyOrS r.home []) = s := by
          simp [pyOrS, hs]
        rw [h1]
        show s = if s = [] then r.home.getD [] else s
        rw [if_neg hs]
  · have hL : (toGame r).away_name = pyOrS r.away_team (pyOrS r.away []) := rfl
    rw [hL]
    cases hht : r.away_team with
    | none =>
      show pyOrS r.away [] = r.away.getD []
      exact hempty r.away
    | some s =>
      by_cases hs : s = []
      · subst hs
        have h1 : pyOrS (some ([] : Str)) (pyOrS r.away []) = pyOrS r.away [] := by
          simp [pyOrS]
        rw [h1, hempty]
        show r.away.getD [] = if ([] : Str) = [] then r.away.getD [] else []
        rw [if_pos rfl]
      · have h1 : pyOrS (some s) (pyOrS r.away []) = s := by
          simp [pyOrS, hs]
        rw [h1]
        show s = if s = [] then r.away.getD [] else s
        rw [if_neg hs]
  · have hL : (toGame r).goals_home =
        (match r.goals_home with
         | none => r.g_home
         | some v => some v).getD 0 := rfl
    rw [hL]
    cases hgh : r.goals_home with
    | none => rfl
    | some v => rfl
  · have hL : (toGame r).goals_away =
        (match r.goals_away with
         | none => r.g_away
         | some v => some v).getD 0 := rfl
    rw [hL]
    cases hga : r.goals_away with
    | none => rfl
    | some v => rfl

/-- C5 (amended): when after conference normalisation no game lands in a
conference and there are exactly 10 games, or the counts are exactly
(0 north, 10 south) or (10 north, 0 south), the output takes the first
five games in input order as `nord` and all remaining games from the
sixth onward as `sued`; otherwise `nord`/`sued` are exactly the games
normalised to `"north"`/`"south"`, in input order.  (The original claim's
"last five" for `sued` is refuted by
`convert_spieltag_claim_counterexample`, where the remainder has six
games.) -/
theorem convert_spieltag_grouping (j : SpieltagJson) :
    ((((nordFiltered j).length = 0 ∧ (suedFiltered j).length = 0 ∧
        (allGames j).length = 10) ∨
      ((nordFiltered j).length = 0 ∧ (suedFiltered j).length = 10) ∨
      ((nordFiltered j).length = 10 ∧ (suedFiltered j).length = 0)) →
      (convert_spieltag_json_to_results j).nord = (allGames j).take 5 ∧
      (convert_spieltag_json_to_results j).sued = (allGames j).drop 5) ∧
    (¬ (((nordFiltered j).length = 0 ∧ (suedFiltered j).length = 0 ∧
        (allGames j).length = 10) ∨
      ((nordFiltered j).length = 0 ∧ (suedFiltered j).length = 10) ∨
      ((nordFiltered j).length = 10 ∧ (suedFiltered j).length = 0)) →
      (convert_spieltag_json_to_results j).nord = nordFiltered j ∧
      (convert_spieltag_json_to_results j).sued = suedFiltered j) := by
  constructor
  · rintro (⟨h1, h2, h3⟩ | ⟨h1, h2⟩ | ⟨h1, h2⟩)
    · have ht : ((allGames j).take 5).length = 5 := by simp [h3]
      dsimp only [convert_spieltag_json_to_results]
      rw [if_pos (⟨h1, h2, h3⟩ : (nordFiltered j).length = 0 ∧
        (suedFiltered j).length = 0 ∧ (allGames j).length = 10)]
      dsimp only
      rw [if_neg (show ¬(((allGames j).take 5).length = 0 ∧
        ((allGames j).drop 5).length = 10) by simp [ht])]
      dsimp only
      rw [if_neg (show ¬(((allGames j).take 5).length = 10 ∧
        ((allGames j).drop 5).length = 0) by simp [ht])]
      exact ⟨rfl, rfl⟩
    · by_cases hA : (nordFiltered j).length = 0 ∧ (suedFiltered j).length = 0 ∧
        (allGames j).length = 10
      · exact absurd hA.2.1 (by omega)
      · have hlen : (suedFiltered j).length ≤ (allGames j).length :=
          List.length_filter_le _ _
        dsimp only [convert_spieltag_json_to_results]
        rw [if_neg hA]
        dsimp only
        rw [if_pos (⟨h1, h2⟩ : (nordFiltered j).length = 0 ∧
          (suedFiltered j).length = 10)]
        dsimp only
        rw [if_neg (show ¬(((allGames j).take 5).length = 10 ∧
          ((allGames j).drop 5).length = 0) by simp [List.length_take]; omega)]
        exact ⟨rfl, rfl⟩
    · by_cases hA : (nordFiltered j).length = 0 ∧ (suedFiltered j).length = 0 ∧
        (allGames j).length = 10
      · exact absurd hA.1 (by omega)
      · dsimp only [convert_spieltag_json_to_results]
        rw [if_neg hA]
        dsimp only
        rw [if_neg (show ¬((nordFiltered j).length = 0 ∧
          (suedFiltered j).length = 10) by simp [h1])]
        dsimp only
        rw [if_pos (⟨h1, h2⟩ : (nordFiltered j).length = 10 ∧
          (suedFiltered j).length = 0)]
        exact ⟨rfl, rfl⟩
  · intro hnone
    obtain ⟨hA, hBC⟩ := not_or.mp hnone
    obtain ⟨hB, hC⟩ := not_or.mp hBC
    dsimp only [convert_spieltag_json_to_results]
    rw [if_neg hA]
    dsimp only
    rw [if_neg hB]
    dsimp only
    rw [if_neg hC]
    exact ⟨rfl, rfl⟩

/-- Counterexample to C5 as stated: eleven results of which ten normalise
to `"south"` and one to no conference.  The claim's condition "0 north and
10 south" holds, but `sued` receives the six games from the sixth onward,
not "the last five". -/
theorem convert_spieltag_claim_counterexample :
    (nordFiltered spieltagElevenInput).length = 0 ∧
    (suedFiltered spieltagElevenInput).length = 10 ∧
    (convert_spieltag_json_to_results spieltagElevenInput).sued.length = 6 := by
  decide

/-- Witness for `convert_spieltag_grouping`: the fallback branch on the
eleven-game input and the no-fallback branch on a mixed two-game input. -/
theorem convert_spieltag_grouping_witness :
    ((convert_spieltag_json_to_results spieltagElevenInput).nord =
      (allGames spieltagElevenInput).take 5 ∧
     (convert_spieltag_json_to_results spieltagElevenInput).sued =
      (allGames spieltagElevenInput).drop 5) ∧
    (convert_spieltag_json_to_results spieltagMixedInput).nord =
      nordFiltered spieltagMixedInput := by
  have h1 := (convert_spieltag_grouping spieltagElevenInput).1
    (Or.inr (Or.inl (by decide)))
  have h2 := (convert_spieltag_grouping spieltagMixedInput).2 (by decide)
  exact ⟨h1, h2.1⟩

theorem genLoop_ok : ∀ (rs : List GenResult) (na sa : List MatchdayPair),
    (∀ r ∈ rs, badConf r = false) →
    genLoop rs na sa = .ok (na ++ (rs.filter isNordRes).map slugPair,
                            sa ++ (rs.filter isSuedRes).map slugPair) := by
  intro rs
  induction rs with
  | nil =>
    intro na sa _
    simp [genLoop]
  | cons r rest ih =>
    intro na sa h
    have hrest : ∀ x ∈ rest, badConf x = false :=
      fun x hx => h x (List.mem_cons_of_mem _ hx)
    by_cases h1 : genConf r = "nord".data
    · have hN : isNordRes r = true := decide_eq_true h1
      have hS : isSuedRes r = false := decide_eq_false (by rw [h1]; decide)
      simp only [genLoop]
      rw [if_pos h1, ih _ _ hrest]
      simp [List.filter_cons, hN, hS, List.append_assoc]
    · by_cases h2 : genConf r = "süd".data ∨ genConf r = "sued".data
      · have hN : isNordRes r = false := decide_eq_false h1
        have hS : isSuedRes r = true := decide_eq_true h2
        simp only [genLoop]
        rw [if_neg h1, if_pos h2, ih _ _ hrest]
        simp [List.filter_cons, hN, hS, List.append_assoc]
      · exfalso
        have hb : badConf r = true := by
          unfold badConf isNordRes isSuedRes
          rw [decide_eq_false h1, decide_eq_false h2]
          rfl
        have := h r (List.mem_cons_self _ _)
        rw [this] at hb
        exact Bool.false_ne_true hb

theorem genLoop_err : ∀ (rs : List GenResult) (na sa : List MatchdayPair),
    (∃ r ∈ rs, badConf r = true) →
    ∃ e, genLoop rs na sa = .error e := by
  intro rs
  induction rs with
  | nil =>
    intro na sa hex
    obtain ⟨x, hx, -⟩ := hex
    simp at hx
  | cons r rest ih =>
    intro na sa hex
    obtain ⟨x, hx, hbad⟩ := hex
    by_cases h1 : genConf r = "nord".data
    · rcases List.mem_cons.mp hx with rfl | hx'
      · have : badConf x = false := by
          unfold badConf isNordRes isSuedRes
          rw [decide_eq_true h1]
          rfl
        rw [this] at hbad
        exact absurd hbad Bool.false_ne_true
      · simp only [genLoop]
        rw [if_pos h1]
        exact ih _ _ ⟨x, hx', hbad⟩
    · by_cases h2 : genConf r = "süd".data ∨ genConf r = "sued".data
      · rcases List.mem_cons.mp hx with rfl | hx'
        · have : badConf x = false := by
            unfold badConf isNordRes isSuedRes
            rw [decide_eq_true h2]
            simp
          rw [this] at hbad
          exact absurd hbad Bool.false_ne_true
        · simp only [genLoop]
          rw [if_neg h1, if_pos h2]
          exact ih _ _ ⟨x, hx', hbad⟩
      · refine ⟨.unknownConference r.conference, ?_⟩
        simp only [genLoop]
        rw [if_neg h1, if_neg h2]

/-- C4: `convert_generator_json_to_matchday` fails exactly when some
result's lowercased conference is none of `"nord"`, `"süd"`, `"sued"`, or
the accepted results are not exactly 5 `nord` plus 5 `sued`; on success it
returns the `spieltag`, the date (the text before `"T"` when present,
else the whole timestamp), and the two 5-element lists of slugified
home/away pairs in input order. -/
theorem convert_generator_spec (d : GenData) :
    ((∃ e, convert_generator_json_to_matchday d = .error e) ↔
      ((∃ r ∈ d.results, badConf r = true) ∨
       (d.results.filter isNordRes).length ≠ 5 ∨
       (d.results.filter isSuedRes).length ≠ 5)) ∧
    (∀ out, convert_generator_json_to_matchday d = .ok out →
      out.spieltag = d.spieltag ∧
      out.date = (if 'T' ∈ d.timestamp then
          d.timestamp.takeWhile (fun c => c != 'T')
        else d.timestamp) ∧
      out.nord = (d.results.filter isNordRes).map slugPair ∧
      out.sued = (d.results.filter isSuedRes).map slugPair ∧
      out.nord.length = 5 ∧ out.sued.length = 5) := by
  by_cases hbad : ∃ r ∈ d.results, badConf r = true
  · obtain ⟨e, he⟩ := genLoop_err d.results [] [] hbad
    have hc : convert_generator_json_to_matchday d = .error e := by
      simp only [convert_generator_json_to_matchday, he]
    constructor
    · exact ⟨fun _ => Or.inl hbad, fun _ => ⟨e, hc⟩⟩
    · intro out hout
      rw [hc] at hout
      exact Except.noConfusion hout
  · have hgood : ∀ r ∈ d.results, badConf r = false := by
      intro r hr
      rcases Bool.eq_false_or_eq_true (badConf r) with h | h
      · exact absurd ⟨r, hr, h⟩ hbad
      · exact h
    have hloop := genLoop_ok d.results [] [] hgood
    rw [List.nil_append, List.nil_append] at hloop
    by_cases hcnt : (d.results.filter isNordRes).length ≠ 5 ∨
        (d.results.filter isSuedRes).length ≠ 5
    · have hc : convert_generator_json_to_matchday d =
          .error (.wrongCounts
            ((d.results.filter isNordRes).map slugPair).length
            ((d.results.filter isSuedRes).map slugPair).length) := by
        simp only [convert_generator_json_to_matchday, hloop]
        rw [if_pos (show ((d.results.filter isNordRes).map slugPair).length ≠ 5 ∨
          ((d.results.filter isSuedRes).map slugPair).length ≠ 5 by
            simpa using hcnt)]
      constructor
      · exact ⟨fun _ => Or.inr hcnt, fun _ => ⟨_, hc⟩⟩
      · intro out hout
        rw [hc] at hout
        exact Except.noConfusion hout
    · push_neg at hcnt
      have hc : convert_generator_json_to_matchday d =
          .ok ⟨d.spieltag,
            (if 'T' ∈ d.timestamp then
              d.timestamp.takeWhile (fun c => c != 'T')
             else d.timestamp),
            (d.results.filter isNordRes).map slugPair,
            (d.results.filter isSuedRes).map slugPair⟩ := by
        simp only [convert_generator_json_to_matchday, hloop]
        rw [if_neg (show ¬(((d.results.filter isNordRes).map slugPair).length ≠ 5 ∨
          ((d.results.filter isSuedRes).map slugPair).length ≠ 5) by
            simp [hcnt.1, hcnt.2])]
      constructor
      · constructor
        · intro hex
          obtain ⟨e, he⟩ := hex
          rw [hc] at he
          exact Except.noConfusion he
        · rintro (h | h | h)
          · exact absurd h hbad
          · exact absurd hcnt.1 h
          · exact absurd hcnt.2 h
      · intro out hout
        rw [hc] at hout
        injection hout with hh
        subst hh
        refine ⟨rfl, rfl, rfl, rfl, ?_, ?_⟩
        · simpa using hcnt.1
        · simpa using hcnt.2

/-- Witness for `convert_generator_spec`: an unknown conference makes the
adapter fail, and a well-formed 5-plus-5 input yields the slugified
matchday dictionary. -/
theorem convert_generator_spec_witness :
    (∃ e, convert_generator_json_to_matchday genBadInput = .error e) ∧
    genOkOutput.spieltag = genOkInput.spieltag ∧
    genOkOutput.date = (if 'T' ∈ genOkInput.timestamp then
        genOkInput.timestamp.takeWhile (fun c => c != 'T')
      else genOkInput.timestamp) ∧
    genOkOutput.nord = (genOkInput.results.filter isNordRes).map slugPair ∧
    genOkOutput.nord.length = 5 := by
  have h1 := (convert_generator_spec genBadInput).1.mpr (Or.inl (by decide))
  have h2 := (convert_generator_spec genOkInput).2 genOkOutput (by rfl)
  exact ⟨h1, h2.1, h2.2.1, h2.2.2.1, h2.2.2.2.2.1⟩

theorem dedupSpec_cons (h : Str) (t : List Str) :
    dedupSpec (h :: t) = h :: dedupSpec (t.filter (fun y => decide (y ≠ h))) := by
  simp [dedupSpec]

theorem dedupAux_eq_spec : ∀ (l : List Str) (seen : List Str),
    dedupAux seen l = dedupSpec (l.filter (fun x => decide (x ∉ seen))) := by
  intro l
  induction l with
  | nil =>
    intro seen
    simp [dedupAux, dedupSpec]
  | cons h t ih =>
    intro seen
    by_cases hh : h ∈ seen
    · have hstep : dedupAux seen (h :: t) = dedupAux seen t := by
        simp [dedupAux, hh]
      rw [hstep, ih]
      congr 1
      simp [List.filter_cons, hh]
    · have hstep : dedupAux seen (h :: t) = h :: dedupAux (h :: seen) t := by
        simp [dedupAux, hh]
      rw [hstep, ih]
      have hr : (h :: t).filter (fun x => decide (x ∉ seen)) =
          h :: t.filter (fun x => decide (x ∉ seen)) := by
        simp [List.filter_cons, hh]
      rw [hr, dedupSpec_cons]
      congr 1
      rw [List.filter_filter]
      congr 1
      apply List.filter_congr
      intro x _
      by_cases h1 : x = h <;> by_cases h2 : x ∈ seen <;> simp [h1, h2]

theorem dedupSpec_mem : ∀ (n : Nat) (l : List Str), l.length ≤ n →
    ∀ x ∈ dedupSpec l, x ∈ l := by
  intro n
  induction n with
  | zero =>
    intro l hl x hx
    have hnil : l = [] := List.length_eq_zero.mp (Nat.le_zero.mp hl)
    subst hnil
    simp [dedupSpec] at hx
  | succ n ih =>
    intro l hl x hx
    cases l with
    | nil => simp [dedupSpec] at hx
    | cons h t =>
      rw [dedupSpec_cons] at hx
      rcases List.mem_cons.mp hx with rfl | hx'
      · exact List.mem_cons_self _ _
      · have hlen : (t.filter (fun y => decide (y ≠ h))).length ≤ n := by
          have h1 := List.length_filter_le (fun y => decide (y ≠ h)) t
          simp at hl
          omega
        exact List.mem_cons_of_mem _
          (List.mem_of_mem_filter (ih _ hlen x hx'))

theorem dedupSpec_nodup : ∀ (n : Nat) (l : List Str), l.length ≤ n →
    (dedupSpec l).Nodup := by
  intro n
  induction n with
  | zero =>
    intro l hl
    have hnil : l = [] := List.length_eq_zero.mp (Nat.le_zero.mp hl)
    subst hnil
    simp [dedupSpec]
  | succ n ih =>
    intro l hl
    cases l with
    | nil => simp [dedupSpec]
    | cons h t =>
      rw [dedupSpec_cons]
      have hlen : (t.filter (fun y => decide (y ≠ h))).length ≤ n := by
        have h1 := List.length_filter_le (fun y => decide (y ≠ h)) t
        simp at hl
        omega
      refine List.nodup_cons.mpr ⟨?_, ih _ hlen⟩
      intro hmem
      have hin := dedupSpec_mem _ _ le_rfl h hmem
      have hne := List.of_mem_filter hin
      simp at hne

/-- C8: `_hashtags` returns the platform's default hashtags followed by
the pillar's platform-specific hashtags, deduplicated so that each
hashtag is kept exactly once at the position of its first occurrence
(`dedupSpec`), and the result is duplicate-free. -/
theorem hashtags_spec (platform pillar_id : Str) (cfg : HashtagsCfg) :
    _hashtags platform pillar_id cfg =
      dedupSpec (cfg.defaults platform ++ cfg.by_pillar pillar_id platform) ∧
    (_hashtags platform pillar_id cfg).Nodup := by
  have he : _hashtags platform pillar_id cfg =
      dedupSpec (cfg.defaults platform ++ cfg.by_pillar pillar_id platform) := by
    unfold _hashtags
    rw [dedupAux_eq_spec]
    congr 1
    apply List.filter_eq_self.mpr
    intro a _
    simp
  refine ⟨he, ?_⟩
  rw [he]
  exact dedupSpec_nodup _ _ le_rfl
